import Mathlib

/-!
Verification of the MQTT client `src/mqtt-asyncio/mqtt_as.py` (module
`mqtt_as`, classes `MQTTProto`, `MQTTClient`, `MQTTConfig`, `MQTTMessage`).

Shallow embedding conventions:
- a Python byte string is a `List Nat` whose elements are the byte values;
- the socket is modelled by the list of bytes available to read (inbound)
  and by the list of bytes written (outbound); `_as_read n` fails (raises
  `OSError`) when fewer than `n` bytes ever arrive;
- Python `None` returned from a function of nominal type `bool` is the
  value `none : Option Bool`;
- raising an exception is modelled by `Except.error` or an explicit error
  constructor carrying the `errno` and message of the `OSError`;
- MicroPython `struct.pack` does not range-check, so 16-bit fields are
  reduced mod 2^16;
- machine integers do not overflow at the sizes involved, so `Nat`/`Int`
  are used directly.
-/

namespace MqttAs

/-! ## Bitwise helper lemmas (Nat bit operations as arithmetic) -/

theorem and127_eq_mod (x : Nat) : x &&& 127 = x % 128 := by
  have h := Nat.and_pow_two_sub_one_eq_mod x 7
  norm_num at h
  exact h

theorem and128_eq (x : Nat) : x &&& 128 = if x / 128 % 2 = 1 then 128 else 0 := by
  have h : (128 : Nat) = 2 ^ 7 := by norm_num
  rw [h, Nat.and_two_pow, Nat.testBit_to_div_mod]
  have h2 : (2 : Nat) ^ 7 = 128 := by norm_num
  rw [h2]
  by_cases hx : x / 128 % 2 = 1 <;> simp [hx]

theorem lor_128_eq_add {x : Nat} (h : x < 128) : x ||| 128 = x + 128 := by
  have h2 : (128 : Nat) = 2 ^ 7 * 1 := by norm_num
  have h3 : x < 2 ^ 7 := by omega
  rw [Nat.lor_comm, h2, ← Nat.mul_add_lt_is_or h3 1]
  omega

theorem lor_shiftLeft_eq_add {n m sh : Nat} (h : n < 2 ^ sh) :
    n ||| (m <<< sh) = n + m * 2 ^ sh := by
  rw [Nat.shiftLeft_eq, Nat.lor_comm, Nat.mul_comm m (2 ^ sh),
    ← Nat.mul_add_lt_is_or h m]
  ring

/-! ## VarintCodec: MQTT remaining-length encoding

`MQTTProto._varint` (mqtt_as.py lines 265-273) writes `value` into `array`
starting at `index` (7 payload bits per byte, continuation bit `0x80`) and
returns the index after the last byte written.

`varint value` is the sequence of bytes that `_varint` writes, i.e. the
array slice between `index` and the returned index.  `varintInto` is the
same loop together with the array-bounds behaviour of the byte stores: a
store past the end of the Python `bytearray` raises `IndexError`, modelled
as `none`. -/

def varint (value : Nat) : List Nat :=
  if h : value > 0x7f then ((value &&& 0x7f) ||| 0x80) :: varint (value >>> 7)
  else [value]
termination_by value
decreasing_by
  simp only [Nat.shiftRight_eq_div_pow]
  exact Nat.div_lt_self (by omega) (by norm_num)

/-- A store `array[i] = v` into a Python bytearray: `IndexError` (modelled
as `none`) when `i` is out of range. (Negative indices cannot arise here.) -/
def listSet (a : List Nat) (i v : Nat) : Option (List Nat) :=
  if i < a.length then some (a.set i v) else none

/-- `MQTTProto._varint` with the bounds behaviour of the array stores. -/
def varintInto (array : List Nat) (index value : Nat) : Option (List Nat × Nat) :=
  if h : value > 0x7f then
    match listSet array index ((value &&& 0x7f) ||| 0x80) with
    | none => none
    | some a => varintInto a (index + 1) (value >>> 7)
  else
    match listSet array index value with
    | none => none
    | some a => some (a, index + 1)
termination_by value
decreasing_by
  simp only [Nat.shiftRight_eq_div_pow]
  exact Nat.div_lt_self (by omega) (by norm_num)

/-- `MQTTProto._recv_len` (mqtt_as.py lines 331-341): reads bytes from the
socket, accumulating 7 bits per byte, until a byte without the `0x80`
continuation bit arrives.  The state `(n, sh)` is the accumulator and shift
of the Python loop; running out of stream bytes models `_as_read` raising. -/
def recvLenLoop : List Nat → Nat → Nat → Option (Nat × List Nat)
  | [], _, _ => none
  | b :: rest, n, sh =>
    if b &&& 0x80 = 0 then some (n ||| ((b &&& 0x7f) <<< sh), rest)
    else recvLenLoop rest (n ||| ((b &&& 0x7f) <<< sh)) (sh + 7)

def recv_len (bs : List Nat) : Option (Nat × List Nat) := recvLenLoop bs 0 0

theorem recvLenLoop_varint (v : Nat) : ∀ n sh rest, n < 2 ^ sh →
    recvLenLoop (varint v ++ rest) n sh = some (n + v * 2 ^ sh, rest) := by
  induction v using Nat.strong_induction_on with
  | _ v ih =>
    intro n sh rest hn
    rw [varint]
    by_cases h : v > 0x7f
    · rw [dif_pos h]
      have hb : (v &&& 0x7f) ||| 0x80 = v % 128 + 128 := by
        rw [and127_eq_mod]
        exact lor_128_eq_add (Nat.mod_lt _ (by norm_num))
      rw [List.cons_append, hb, recvLenLoop]
      have hcont : ¬ (v % 128 + 128) &&& 128 = 0 := by
        rw [and128_eq]
        have hd : (v % 128 + 128) / 128 = 1 := by omega
        simp [hd]
      rw [if_neg hcont]
      have hlow : (v % 128 + 128) &&& 127 = v % 128 := by
        rw [and127_eq_mod]; omega
      rw [hlow, lor_shiftLeft_eq_add hn]
      have hn2lt : n + v % 128 * 2 ^ sh < 2 ^ (sh + 7) := by
        have h1 : v % 128 ≤ 127 := by omega
        have h2 : v % 128 * 2 ^ sh ≤ 127 * 2 ^ sh := Nat.mul_le_mul_right _ h1
        have h3 : 2 ^ (sh + 7) = 2 ^ sh * 128 := by rw [pow_add]; norm_num
        omega
      have hsr : v >>> 7 = v / 128 := by
        rw [Nat.shiftRight_eq_div_pow]
      have hlt : v >>> 7 < v := by
        rw [hsr]; exact Nat.div_lt_self (by omega) (by norm_num)
      rw [ih _ hlt _ _ rest hn2lt]
      congr 2
      have hsplit : v % 128 + 128 * (v / 128) = v := Nat.mod_add_div v 128
      have h3 : 2 ^ (sh + 7) = 2 ^ sh * 128 := by rw [pow_add]; norm_num
      rw [hsr, h3]
      nlinarith [hsplit]
    · rw [dif_neg h]
      rw [List.cons_append, recvLenLoop]
      have hz : v &&& 128 = 0 := by
        rw [and128_eq]
        have hd : v / 128 = 0 := by omega
        simp [hd]
      rw [if_pos hz]
      have hlow : v &&& 127 = v := by rw [and127_eq_mod]; omega
      rw [hlow, lor_shiftLeft_eq_add hn, List.nil_append]

theorem varint_nonempty (v : Nat) : 1 ≤ (varint v).length := by
  rw [varint]
  by_cases h : v > 0x7f
  · rw [dif_pos h]; simp
  · rw [dif_neg h]; simp

theorem varint_length_le (k : Nat) : ∀ v, v < 128 ^ (k + 1) → (varint v).length ≤ k + 1 := by
  induction k with
  | zero =>
    intro v hv
    rw [varint, dif_neg (by norm_num at hv ⊢; omega)]
    simp
  | succ k ih =>
    intro v hv
    rw [varint]
    by_cases h : v > 0x7f
    · rw [dif_pos h]
      have hsr : v >>> 7 = v / 128 := by
        rw [Nat.shiftRight_eq_div_pow]
      have hlt : v / 128 < 128 ^ (k + 1) := by
        rw [pow_succ] at hv
        exact Nat.div_lt_of_lt_mul (by omega)
      have := ih (v >>> 7) (by rw [hsr]; exact hlt)
      simp only [List.length_cons]
      omega
    · rw [dif_neg h]
      simp only [List.length_singleton]
      omega

theorem varintInto_none_of_ge (k : Nat) : ∀ v a i, 128 ^ k ≤ v → a.length ≤ i + k →
    varintInto a i v = none := by
  induction k with
  | zero =>
    intro v a i _ hlen
    rw [varintInto]
    by_cases h : v > 0x7f
    · rw [dif_pos h]
      rw [listSet, if_neg (by omega)]
    · rw [dif_neg h]
      rw [listSet, if_neg (by omega)]
  | succ k ih =>
    intro v a i hv hlen
    have h : v > 0x7f := by
      have : (128:Nat) ≤ 128 ^ (k + 1) := Nat.le_self_pow (by omega) 128
      omega
    rw [varintInto, dif_pos h]
    rw [listSet]
    by_cases hi : i < a.length
    · rw [if_pos hi]
      have hsr : v >>> 7 = v / 128 := by
        rw [Nat.shiftRight_eq_div_pow]
      apply ih
      · rw [hsr]
        rw [pow_succ] at hv
        exact Nat.le_div_iff_mul_le (by norm_num) |>.mpr hv
      · rw [List.length_set]
        omega
    · rw [if_neg hi]

/-- C6: for every remaining-length value below 2^28, `_varint` emits
between 1 and 4 bytes which `_recv_len` decodes back to exactly the value,
and for any value of 2^28 or more the encoding loop fails: writing into the
5-byte packet-header bytearray used by `connect` (one opcode byte plus at
most four length bytes) runs past the end of the array. -/
theorem varint_roundtrip_spec :
    (∀ v, v < 2 ^ 28 →
      1 ≤ (varint v).length ∧ (varint v).length ≤ 4 ∧
      ∀ rest, recv_len (varint v ++ rest) = some (v, rest)) ∧
    (∀ v, 2 ^ 28 ≤ v → ∀ a : List Nat, a.length = 5 → varintInto a 1 v = none) := by
  constructor
  · intro v hv
    refine ⟨varint_nonempty v, ?_, ?_⟩
    · have h : v < 128 ^ (3 + 1) := by norm_num at hv ⊢; omega
      have := varint_length_le 3 v h
      omega
    · intro rest
      have := recvLenLoop_varint v 0 0 rest (by norm_num)
      simpa [recv_len] using this
  · intro v hv a ha
    apply varintInto_none_of_ge 4
    · norm_num at hv ⊢; omega
    · omega

theorem recv_len_varint (v : Nat) (rest : List Nat) :
    recv_len (varint v ++ rest) = some (v, rest) := by
  have h := recvLenLoop_varint v 0 0 rest (by norm_num)
  simpa [recv_len] using h

/-! ## Messages and the PUBLISH encoder -/

/-- Payload of a publish: one byte string, or an ordered sequence of byte
chunks (mqtt_as.py lines 373-376 and 396-401 treat a Python list of chunks
specially, enabling streaming). -/
inductive Payload
  | bytes (b : List Nat)
  | chunks (cs : List (List Nat))
deriving Repr, DecidableEq

/-- Payload length `mlen` as computed at mqtt_as.py lines 372-376. -/
def Payload.mlen : Payload → Nat
  | .bytes b => b.length
  | .chunks cs => (cs.map List.length).sum

/-- The payload bytes written to the socket at lines 396-401 (chunks are
written in order). -/
def Payload.wire : Payload → List Nat
  | .bytes b => b
  | .chunks cs => cs.flatten

/-- `qos_check` (mqtt_as.py lines 128-130): true when no `ValueError` is
raised, i.e. qos is 0 or 1. -/
def qos_check (qos : Nat) : Bool := qos == 0 || qos == 1

/-- `MQTTMessage` (mqtt_as.py lines 148-159).  Topic and payload are byte
strings (the constructor encodes `str` arguments to bytes); the constructor
also runs `qos_check`, which is modelled at each construction site. -/
structure MQTTMessage where
  topic : List Nat
  message : Payload
  retain : Bool
  qos : Nat
  pid : Option Nat
deriving Repr, DecidableEq

/-- A big-endian 16-bit field as written by `struct.pack("!H", v)`.
MicroPython struct does not range-check, so the value is reduced mod 2^16. -/
def be16 (v : Nat) : List Nat := [v / 256 % 256, v % 256]

/-- `MQTTProto.publish` (mqtt_as.py lines 371-403), modelled as the pair of
(bytes written to the socket, raised error).  The size check precedes every
write, so on error nothing is written.  On success the wire bytes are the
slice `pkt[0:l]` built at lines 383-392 (header byte, remaining-length
varint, 16-bit topic length, topic, and for qos > 0 the 16-bit packet id)
followed by the payload writes of lines 394-401.
`struct.pack_into("!H", pkt, l, msg.pid)` raises when `pid` is `None`,
modelled by the "pid missing" error (also raised before any socket write). -/
def publish (msg : MQTTMessage) (dup : Nat) : List Nat × Option String :=
  let mlen := msg.message.mlen
  let sz := 2 + msg.topic.length + mlen + (if msg.qos > 0 then 2 else 0)
  if sz ≥ 2097152 then ([], some "message too long")
  else
    let hdr := 0x30 ||| (msg.qos <<< 1) ||| msg.retain.toNat ||| (dup <<< 3)
    if msg.qos > 0 then
      match msg.pid with
      | none => ([], some "pid missing")
      | some p =>
        (hdr :: (varint sz ++ be16 msg.topic.length ++ msg.topic ++ be16 p
          ++ msg.message.wire), none)
    else
      (hdr :: (varint sz ++ be16 msg.topic.length ++ msg.topic
        ++ msg.message.wire), none)

/-! ## The check_msg decoder -/

/-- A callback invocation made by `check_msg`: the ping response, the
puback callback, the suback callback, or the publish callback. -/
inductive MqttEvent
  | pong
  | pubackEv (pid : Nat)
  | subackEv (pid code : Nat)
  | pubEv (m : MQTTMessage)
deriving Repr, DecidableEq

/-- Result of one `check_msg` call: `nodata` models the `return None` taken
when the socket has no byte available, `errRaise` a raised error, and `ok`
carries the returned `op >> 4` and the unconsumed stream. -/
inductive CheckOutcome
  | nodata
  | errRaise (e : String)
  | ok (opHi : Nat) (rest : List Nat)
deriving Repr, DecidableEq

structure CheckResult where
  events : List MqttEvent
  out : List Nat
  outcome : CheckOutcome
deriving Repr, DecidableEq

def CONN_TIMEOUT : String := "Connection timed out"
def PROTO_ERROR : String := "Protocol error"

/-- `MQTTProto._as_read n` on a stream: the first `n` bytes and the rest;
when fewer than `n` bytes ever arrive the read raises (timeout or
connection closed), modelled as `none`.  Reading zero bytes returns the
empty byte string immediately (line 281). -/
def asRead (n : Nat) (bs : List Nat) : Option (List Nat × List Nat) :=
  if n ≤ bs.length then some (bs.take n, bs.drop n) else none

/-- `MQTTProto.check_msg` (mqtt_as.py lines 425-485) applied to the inbound
byte stream.  Dispatch is on the first byte: PINGRESP 0xd0, PUBACK 0x40,
SUBACK 0x90, PUBLISH high nibble 0x30, otherwise a protocol error.  For an
inbound publish the remaining length is decoded, then the topic, the packet
id when the qos bits are nonzero, and the payload; a negative residual
length is a protocol error; the dispatched `MQTTMessage` constructor runs
`qos_check`, so qos 2 or 3 raises "unsupported qos" before the dispatch
(making the explicit `qos == 2` arm at line 481 unreachable); a qos-1
publish is answered with a PUBACK packet. -/
def check_msg (stream : List Nat) : CheckResult :=
  match stream with
  | [] => ⟨[], [], .nodata⟩
  | op :: s0 =>
    if op = 0xd0 then
      match asRead 1 s0 with
      | none => ⟨[], [], .errRaise CONN_TIMEOUT⟩
      | some (_, s1) => ⟨[.pong], [], .ok (op >>> 4) s1⟩
    else if op = 0x40 then
      match asRead 1 s0 with
      | none => ⟨[], [], .errRaise CONN_TIMEOUT⟩
      | some (szb, s1) =>
        if szb ≠ [2] then ⟨[], [], .errRaise PROTO_ERROR⟩
        else
          match asRead 2 s1 with
          | none => ⟨[], [], .errRaise CONN_TIMEOUT⟩
          | some (pb, s2) =>
            ⟨[.pubackEv ((pb.getD 0 0) <<< 8 ||| pb.getD 1 0)], [], .ok (op >>> 4) s2⟩
    else if op = 0x90 then
      match asRead 4 s0 with
      | none => ⟨[], [], .errRaise CONN_TIMEOUT⟩
      | some (resp, s1) =>
        ⟨[.subackEv (resp.getD 2 0 ||| (resp.getD 1 0) <<< 8) (resp.getD 3 0)],
          [], .ok (op >>> 4) s1⟩
    else if op &&& 0xf0 = 0x30 then
      match recv_len s0 with
      | none => ⟨[], [], .errRaise CONN_TIMEOUT⟩
      | some (sz, s1) =>
        match asRead 2 s1 with
        | none => ⟨[], [], .errRaise CONN_TIMEOUT⟩
        | some (tl, s2) =>
          let topic_len := (tl.getD 0 0) <<< 8 ||| tl.getD 1 0
          match asRead topic_len s2 with
          | none => ⟨[], [], .errRaise CONN_TIMEOUT⟩
          | some (topic, s3) =>
            let sz1 : Int := (sz : Int) - (topic_len + 2)
            let retained := op &&& 0x01
            let qos := (op >>> 1) &&& 3
            if qos ≠ 0 then
              match asRead 2 s3 with
              | none => ⟨[], [], .errRaise CONN_TIMEOUT⟩
              | some (pb, s4) =>
                let pid := (pb.getD 0 0) <<< 8 ||| pb.getD 1 0
                if sz1 - 2 < 0 then ⟨[], [], .errRaise PROTO_ERROR⟩
                else
                  match asRead (sz1 - 2).toNat s4 with
                  | none => ⟨[], [], .errRaise CONN_TIMEOUT⟩
                  | some (body, s5) =>
                    if ¬ qos_check qos then ⟨[], [], .errRaise "unsupported qos"⟩
                    else
                      ⟨[.pubEv ⟨topic, .bytes body, retained != 0, qos, some pid⟩],
                        if qos = 1 then 0x40 :: 0x02 :: be16 pid else [],
                        .ok (op >>> 4) s5⟩
            else
              if sz1 < 0 then ⟨[], [], .errRaise PROTO_ERROR⟩
              else
                match asRead sz1.toNat s3 with
                | none => ⟨[], [], .errRaise CONN_TIMEOUT⟩
                | some (body, s4) =>
                  if ¬ qos_check qos then ⟨[], [], .errRaise "unsupported qos"⟩
                  else
                    ⟨[.pubEv ⟨topic, .bytes body, retained != 0, qos, none⟩], [],
                      .ok (op >>> 4) s4⟩
    else ⟨[], [], .errRaise PROTO_ERROR⟩

/-! ## PUBLISH encode/decode round trip -/

theorem asRead_self (a b : List Nat) : asRead a.length (a ++ b) = some (a, b) := by
  rw [asRead, if_pos (by simp)]
  rw [List.take_left, List.drop_left]

theorem asRead_be16 (v : Nat) (b : List Nat) : asRead 2 (be16 v ++ b) = some (be16 v, b) := by
  have h : (be16 v).length = 2 := rfl
  rw [← h, asRead_self]

theorem be16_decode {v : Nat} (h : v < 65536) :
    ((be16 v).getD 0 0) <<< 8 ||| (be16 v).getD 1 0 = v := by
  have h0 : (be16 v).getD 0 0 = v / 256 % 256 := rfl
  have h1 : (be16 v).getD 1 0 = v % 256 := rfl
  rw [h0, h1, Nat.shiftLeft_eq, Nat.mul_comm (v / 256 % 256) (2 ^ 8),
    ← Nat.mul_add_lt_is_or (show v % 256 < 2 ^ 8 by omega) (v / 256 % 256)]
  omega

theorem bne_toNat (b : Bool) : (b.toNat != 0) = b := by cases b <;> rfl

/-- The PUBLISH header byte `0x30 | qos << 1 | retain | dup << 3` of
mqtt_as.py line 384 and the fields `check_msg` extracts from it. -/
theorem hdr_fields {q r d : Nat} (hq : q ≤ 1) (hr : r ≤ 1) (hd : d ≤ 1) :
    (0x30 ||| (q <<< 1) ||| r ||| (d <<< 3)) ≠ 0xd0 ∧
    (0x30 ||| (q <<< 1) ||| r ||| (d <<< 3)) ≠ 0x40 ∧
    (0x30 ||| (q <<< 1) ||| r ||| (d <<< 3)) ≠ 0x90 ∧
    (0x30 ||| (q <<< 1) ||| r ||| (d <<< 3)) &&& 0xf0 = 0x30 ∧
    (0x30 ||| (q <<< 1) ||| r ||| (d <<< 3)) &&& 0x01 = r ∧
    ((0x30 ||| (q <<< 1) ||| r ||| (d <<< 3)) >>> 1) &&& 3 = q ∧
    (0x30 ||| (q <<< 1) ||| r ||| (d <<< 3)) >>> 4 = 3 := by
  interval_cases q <;> interval_cases r <;> interval_cases d <;>
    refine ⟨?_, ?_, ?_, ?_, ?_, ?_, ?_⟩ <;> decide

/-- Closed-form instance of `varint_roundtrip_spec`: the boundary values
named by the spec, and failure of a 2^28 encoding into the connect header. -/
theorem varint_roundtrip_spec_witness :
    ((varint 2097151).length ≤ 4 ∧
      recv_len (varint 2097151 ++ [7]) = some (2097151, [7])) ∧
    varintInto [0x10, 0, 0, 0, 0] 1 268435456 = none :=
  ⟨⟨(varint_roundtrip_spec.1 2097151 (by norm_num)).2.1,
    (varint_roundtrip_spec.1 2097151 (by norm_num)).2.2 [7]⟩,
   varint_roundtrip_spec.2 268435456 (by norm_num) [0x10, 0, 0, 0, 0] (by decide)⟩


/-- Generic decode of a qos-0 PUBLISH packet by `check_msg`. -/
theorem check_msg_pub0 (op : Nat) (t body rest : List Nat)
    (g1 : op ≠ 0xd0) (g2 : op ≠ 0x40) (g3 : op ≠ 0x90) (g4 : op &&& 0xf0 = 0x30)
    (g6 : (op >>> 1) &&& 3 = 0)
    (ht : t.length < 65536) :
    check_msg (op :: (varint (2 + t.length + body.length) ++ be16 t.length ++ t ++ body ++ rest)) =
      ⟨[.pubEv ⟨t, .bytes body, (op &&& 1) != 0, 0, none⟩], [], .ok (op >>> 4) rest⟩ := by
  rw [check_msg]
  rw [if_neg g1, if_neg g2, if_neg g3, if_pos g4]
  simp only [List.append_assoc]
  rw [recv_len_varint]
  simp only [asRead_be16]
  rw [be16_decode ht]
  simp only [asRead_self]
  rw [g6]
  simp only [ne_eq, not_true_eq_false, not_false_eq_true, if_false, ite_false, reduceIte]
  have hnn : ¬ ((((2 + t.length + body.length : Nat)) : Int) - (((t.length : Nat) : Int) + 2) < 0) := by
    push_cast
    omega
  rw [if_neg hnn]
  have htn : ((((2 + t.length + body.length : Nat)) : Int) - (((t.length : Nat) : Int) + 2)).toNat = body.length := by
    omega
  rw [htn]
  simp only [asRead_self]
  simp [qos_check]

theorem check_msg_pub1 (op p : Nat) (t body rest : List Nat)
    (g1 : op ≠ 0xd0) (g2 : op ≠ 0x40) (g3 : op ≠ 0x90) (g4 : op &&& 0xf0 = 0x30)
    (g6 : (op >>> 1) &&& 3 = 1)
    (ht : t.length < 65536) (hp : p < 65536) :
    check_msg (op :: (varint (2 + t.length + body.length + 2)
        ++ be16 t.length ++ t ++ be16 p ++ body ++ rest)) =
      ⟨[.pubEv ⟨t, .bytes body, (op &&& 1) != 0, 1, some p⟩],
        0x40 :: 0x02 :: be16 p, .ok (op >>> 4) rest⟩ := by
  rw [check_msg]
  rw [if_neg g1, if_neg g2, if_neg g3, if_pos g4]
  simp only [List.append_assoc]
  rw [recv_len_varint]
  simp only [asRead_be16]
  rw [be16_decode ht]
  simp only [asRead_self]
  rw [g6]
  simp only [ne_eq, one_ne_zero, not_false_eq_true, if_true, ite_true, reduceIte]
  simp only [asRead_be16]
  rw [be16_decode hp]
  have hnn : ¬ ((((2 + t.length + body.length + 2 : Nat)) : Int) - (((t.length : Nat) : Int) + 2) - 2 < 0) := by
    push_cast
    omega
  rw [if_neg hnn]
  have htn : ((((2 + t.length + body.length + 2 : Nat)) : Int) - (((t.length : Nat) : Int) + 2) - 2).toNat = body.length := by
    omega
  rw [htn]
  simp only [asRead_self]
  simp [qos_check]

/-- C1: for every MQTTMessage with byte-string topic and payload, qos 0 or
1, any retain and dup flag, a u16 pid when qos is 1, a u16 topic length and
a remaining length within the encodable bound, the bytes produced by
`MQTTProto.publish` and consumed by `MQTTProto.check_msg` result in exactly
one publish-callback invocation, whose message agrees with the original on
topic, payload, qos and retain. -/
theorem publish_check_msg_roundtrip
    (m : MQTTMessage) (pl : List Nat) (dup : Nat) (rest : List Nat)
    (hm : m.message = .bytes pl)
    (hq : m.qos = 0 ∨ m.qos = 1)
    (hd : dup = 0 ∨ dup = 1)
    (ht : m.topic.length < 65536)
    (hpid : m.qos = 1 → ∃ p, m.pid = some p ∧ p < 65536)
    (hsz : 2 + m.topic.length + pl.length + (if m.qos > 0 then 2 else 0) < 2097152) :
    (publish m dup).2 = none ∧
    ∃ m2, (check_msg ((publish m dup).1 ++ rest)).events = [.pubEv m2] ∧
      m2.topic = m.topic ∧ m2.message = m.message ∧
      m2.qos = m.qos ∧ m2.retain = m.retain := by
  obtain ⟨t, pay, rt, q, pd⟩ := m
  simp only [MQTTMessage.message] at hm
  simp only [MQTTMessage.qos] at hq hpid hsz
  simp only [MQTTMessage.topic] at ht hsz
  subst hm
  have hrt : rt.toNat ≤ 1 := by cases rt <;> simp
  have hd1 : dup ≤ 1 := by omega
  rcases hq with hq | hq
  · subst hq
    norm_num at hsz
    obtain ⟨g1, g2, g3, g4, g5, g6, g7⟩ :=
      hdr_fields (q := 0) (r := rt.toNat) (d := dup) (by omega) hrt hd1
    have hpub : publish ⟨t, .bytes pl, rt, 0, pd⟩ dup =
        ((0x30 ||| (0 <<< 1) ||| rt.toNat ||| (dup <<< 3)) ::
          (varint (2 + t.length + pl.length) ++ be16 t.length ++ t ++ pl), none) := by
      simp only [publish, Payload.mlen, Payload.wire]
      norm_num
      omega
    refine ⟨by rw [hpub], ⟨t, .bytes pl, rt, 0, none⟩, ?_, rfl, rfl, rfl, rfl⟩
    rw [hpub, List.cons_append, check_msg_pub0 _ _ _ _ g1 g2 g3 g4 g6 ht, g5, bne_toNat]
  · subst hq
    norm_num at hsz
    obtain ⟨p, hpd, hplt⟩ := hpid rfl
    subst hpd
    obtain ⟨g1, g2, g3, g4, g5, g6, g7⟩ :=
      hdr_fields (q := 1) (r := rt.toNat) (d := dup) (by omega) hrt hd1
    have hpub : publish ⟨t, .bytes pl, rt, 1, some p⟩ dup =
        ((0x30 ||| (1 <<< 1) ||| rt.toNat ||| (dup <<< 3)) ::
          (varint (2 + t.length + pl.length + 2) ++ be16 t.length ++ t ++ be16 p ++ pl),
          none) := by
      simp only [publish, Payload.mlen, Payload.wire]
      norm_num
      omega
    refine ⟨by rw [hpub], ⟨t, .bytes pl, rt, 1, some p⟩, ?_, rfl, rfl, rfl, rfl⟩
    rw [hpub, List.cons_append, check_msg_pub1 _ _ _ _ _ g1 g2 g3 g4 g6 ht hplt, g5, bne_toNat]

/-- Closed instance of the publish round trip at a concrete message. -/
theorem publish_check_msg_roundtrip_witness :
    (publish ⟨[116], .bytes [7, 8], true, 1, some 3⟩ 1).2 = none ∧
    ∃ m2, (check_msg ((publish ⟨[116], .bytes [7, 8], true, 1, some 3⟩ 1).1
        ++ [5])).events = [.pubEv m2] ∧
      m2.topic = [116] ∧ m2.message = .bytes [7, 8] ∧ m2.qos = 1 ∧ m2.retain = true :=
  publish_check_msg_roundtrip ⟨[116], .bytes [7, 8], true, 1, some 3⟩ [7, 8] 1 [5]
    rfl (Or.inr rfl) (Or.inr rfl) (by norm_num)
    (fun _ => ⟨3, rfl, by norm_num⟩) (by norm_num)

/-- C7: `MQTTProto.publish` raises the "message too long" error exactly
when the computed remaining length `2 + len(topic) + payload_len
(+ 2 when qos > 0)` is at least 2097152; and whenever publish raises at
all, it raises before any byte is written to the stream (either no error
is raised, or the write trace is empty). -/
theorem publish_too_long (m : MQTTMessage) (dup : Nat) :
    ((publish m dup).2 = some "message too long" ↔
      2 + m.topic.length + m.message.mlen + (if m.qos > 0 then 2 else 0) ≥ 2097152) ∧
    ((publish m dup).2 = none ∨ (publish m dup).1 = []) := by
  obtain ⟨t, pay, rt, q, pd⟩ := m
  simp only [MQTTMessage.topic, MQTTMessage.message, MQTTMessage.qos]
  by_cases h : 2 + t.length + pay.mlen + (if q > 0 then 2 else 0) ≥ 2097152
  · simp [publish, h]
  · constructor
    · refine ⟨fun hc => ?_, fun hc => absurd hc h⟩
      exfalso
      simp only [publish, if_neg h] at hc
      by_cases hq : q > 0
      · rw [if_pos hq] at hc
        cases pd <;> simp at hc
      · rw [if_neg hq] at hc
        simp at hc
    · simp only [publish, if_neg h]
      by_cases hq : q > 0
      · rw [if_pos hq]
        cases pd <;> simp
      · rw [if_neg hq]
        simp

/-! ## MQTTProto.isconnected and the keepalive pump -/

/-- Python truthiness of an optional bool: `None` is falsy. -/
def pyTruthy : Option Bool → Bool
  | none => false
  | some b => b

/-- `MQTTProto.isconnected` (mqtt_as.py line 367).  The Python body is the
bare expression `self._sock is not None` with no `return` statement: the
comparison is evaluated and discarded and the function returns `None`,
modelled as `none : Option Bool`. -/
def isconnected (sock : Option Unit) : Option Bool :=
  let _comparison := sock.isSome
  none

/-- C10: `isconnected` returns `None` for every socket state, in
particular its result is falsy even while a socket is open. -/
theorem isconnected_always_none (sock : Option Unit) :
    isconnected sock = none ∧ pyTruthy (isconnected sock) = false :=
  ⟨rfl, rfl⟩

/-- State read by the keepalive pump: the socket of the engine it guards,
the engine timestamps, and the current time `ticks_ms()`. -/
structure KAState where
  sock : Option Unit
  last_req : Int
  last_ack : Int
  now : Int
deriving Repr, DecidableEq

/-- An observable action of the keepalive pump. -/
inductive KAAction
  | ping
  | reconnect (why : String)
deriving Repr, DecidableEq

/-- One iteration of the `while` body of `MQTTClient._keep_alive`
(mqtt_as.py lines 681-697): either the keepalive timeout of line 688
raises (`none` as the next state), or the iteration performs its actions,
sleeps until the next deadline, and loops.  `rt_ms` is
`response_time * 1000`; it is even, so the Python float `rt_ms/2` is
modelled exactly by integer division.  A ping resets the deadline and
advances `last_req` when nothing is outstanding (lines 346-350). -/
def keepAliveIter (rt_ms : Int) (st : KAState) : List KAAction × Option KAState :=
  let dt := st.now - st.last_ack
  if st.last_req - st.last_ack > 0 then
    if dt ≥ rt_ms then ([], none)
    else ([], some { st with now := st.now + (rt_ms - dt) })
  else
    if dt ≥ rt_ms / 2 then
      ([.ping],
        some { st with
          last_req := if st.last_req - st.last_ack ≤ 0 then st.now else st.last_req,
          now := st.now + rt_ms / 2 })
    else ([], some { st with now := st.now + (rt_ms / 2 - dt) })

/-- `MQTTClient._keep_alive` (mqtt_as.py lines 678-700): the actions the
pump performs, the loop bounded by `fuel` iterations.  A raised exception
is caught by the handler at lines 698-700, which escalates by calling
`_reconnect(proto, "keepalive")`. -/
def keep_alive (rt_ms : Int) : Nat → KAState → List KAAction
  | 0, _ => []
  | fuel + 1, st =>
    if pyTruthy (isconnected st.sock) then
      match keepAliveIter rt_ms st with
      | (acts, none) => acts ++ [.reconnect "keepalive"]
      | (acts, some st2) => acts ++ keep_alive rt_ms fuel st2
    else []

/-- C2 (code bug): the keepalive pump performs no action in any state: the
loop guard `while proto.isconnected()` tests the `None` returned by
`isconnected` (whose missing `return` makes it always falsy), so the loop
body is never entered.  In particular, with a connected engine, an
outstanding request and the response time elapsed it neither escalates
reconnection nor ever sends a ping. -/
theorem keep_alive_no_actions (rt_ms : Int) (fuel : Nat) (st : KAState) :
    keep_alive rt_ms fuel st = [] := by
  cases fuel <;> rfl

/-! ## MQTTClient._reconnect -/

/-- The MQTTClient fields read and written by `_reconnect`: `_state`
(0 init, 1 has-connected, 2 dead, line 515) and `_proto`, the current
engine, identified by an engine id standing for Python object identity. -/
structure ClientConn where
  state : Nat
  proto : Option Nat
deriving Repr, DecidableEq

/-- A side effect performed by `_reconnect`. -/
inductive ReconnectAction
  | disconnectEngine (engine : Nat)
  | notifyWifiDown
deriving Repr, DecidableEq

/-- `MQTTClient._reconnect` (mqtt_as.py lines 705-711): only when
`self._state == 1 and self._proto == proto` it disconnects the engine,
clears `self._proto`, and schedules the wifi callback with `False`;
otherwise it does nothing. -/
def reconnect (st : ClientConn) (proto : Nat) : ClientConn × List ReconnectAction :=
  if st.state = 1 ∧ st.proto = some proto then
    ({ st with proto := none }, [.disconnectEngine proto, .notifyWifiDown])
  else (st, [])

/-- Number of engine teardowns in an action list. -/
def teardowns (l : List ReconnectAction) : Nat :=
  (l.filter fun a => match a with | .disconnectEngine _ => true | _ => false).length

/-- C4: `_reconnect` tears the connection down exactly when the client is
in the connected state and the failed engine is the current one; in every
other case the client state and current engine are unchanged; hence two
calls reporting the same dead engine perform at most one teardown. -/
theorem reconnect_guarded (st : ClientConn) (p : Nat) :
    (st.state = 1 ∧ st.proto = some p →
      reconnect st p = ({ st with proto := none },
        [.disconnectEngine p, .notifyWifiDown])) ∧
    (¬ (st.state = 1 ∧ st.proto = some p) → reconnect st p = (st, [])) ∧
    teardowns (reconnect st p).2 + teardowns (reconnect (reconnect st p).1 p).2 ≤ 1 := by
  refine ⟨fun h => by simp [reconnect, h], fun h => by simp [reconnect, h], ?_⟩
  by_cases h : st.state = 1 ∧ st.proto = some p
  · simp [reconnect, h, teardowns]
  · simp [reconnect, h, teardowns]

/-- Closed instance of `reconnect_guarded`: first call on the current
engine tears down, second call for the same engine is a no-op. -/
theorem reconnect_guarded_witness :
    reconnect ⟨1, some 7⟩ 7 = (⟨1, none⟩, [.disconnectEngine 7, .notifyWifiDown]) ∧
    reconnect ⟨1, none⟩ 7 = (⟨1, none⟩, []) ∧
    teardowns (reconnect ⟨1, some 7⟩ 7).2 +
      teardowns (reconnect (reconnect ⟨1, some 7⟩ 7).1 7).2 ≤ 1 :=
  ⟨(reconnect_guarded ⟨1, some 7⟩ 7).1 ⟨rfl, rfl⟩,
   (reconnect_guarded ⟨1, none⟩ 7).2.1 (by simp),
   (reconnect_guarded ⟨1, some 7⟩ 7).2.2⟩

/-! ## Packet ids -/

/-- `MQTTClient._newpid` (mqtt_as.py lines 626-629) as a function of the
`_lastpid` field: returns (pid, new field value); the returned pid is the
updated field. -/
def newpid (lastpid : Nat) : Nat × Nat :=
  let l := lastpid + 1
  let l2 := if l > 65535 then 1 else l
  (l2, l2)

/-- The pid returned by the (n+1)-st `_newpid` call on one client; the
constructor sets `_lastpid = 0` (line 513). -/
def pidAfter : Nat → Nat
  | 0 => (newpid 0).1
  | n + 1 => (newpid (pidAfter n)).1

theorem pidAfter_bounds (n : Nat) : 1 ≤ pidAfter n ∧ pidAfter n ≤ 65535 := by
  induction n with
  | zero => exact ⟨by decide, by decide⟩
  | succ n ih =>
    obtain ⟨h1, h2⟩ := ih
    show 1 ≤ (newpid (pidAfter n)).1 ∧ (newpid (pidAfter n)).1 ≤ 65535
    simp only [newpid]
    by_cases h : pidAfter n + 1 > 65535
    · rw [if_pos h]; omega
    · rw [if_neg h]; omega

/-- C9: every pid `_newpid` returns lies in [1, 65535]; consecutive
returns increase by one until 65535 and then wrap to 1; 0 is never
returned. -/
theorem newpid_cycle (n : Nat) :
    (1 ≤ pidAfter n ∧ pidAfter n ≤ 65535) ∧
    (pidAfter n < 65535 → pidAfter (n + 1) = pidAfter n + 1) ∧
    (pidAfter n = 65535 → pidAfter (n + 1) = 1) ∧
    pidAfter n ≠ 0 := by
  obtain ⟨h1, h2⟩ := pidAfter_bounds n
  refine ⟨⟨h1, h2⟩, fun h => ?_, fun h => ?_, by omega⟩
  · show (newpid (pidAfter n)).1 = pidAfter n + 1
    simp only [newpid]
    rw [if_neg (by omega)]
  · show (newpid (pidAfter n)).1 = 1
    simp only [newpid]
    rw [if_pos (by omega)]

/-- Closed instance of `newpid_cycle`: the first two pids are 1 and 2. -/
theorem newpid_cycle_witness :
    (1 ≤ pidAfter 0 ∧ pidAfter 0 ≤ 65535) ∧ pidAfter 1 = pidAfter 0 + 1 ∧
    pidAfter 0 ≠ 0 :=
  ⟨(newpid_cycle 0).1, (newpid_cycle 0).2.1 (by decide), (newpid_cycle 0).2.2.2⟩

/-! ## Ack table: suback handling and ack waiting -/

/-- A value stored in `MQTTClient._unacked_pids`: the expected qos of a
pending subscribe, the message of a pending qos-1 publish, or a recorded
`OSError(errno, strerror)` rejection. -/
inductive PidVal
  | qosVal (q : Nat)
  | msgVal (m : MQTTMessage)
  | errVal (errno : Int) (strerror : String)
deriving Repr, DecidableEq

/-- Whether a stored value is a recorded OSError (`isinstance(..., OSError)`
at line 654). -/
def PidVal.isErr : PidVal → Bool
  | .errVal _ _ => true
  | _ => false

/-- `MQTTClient._got_suback` (mqtt_as.py lines 639-647) acting on the
table entry of the acked pid; `none` means the pid is not in the table, in
which case the handler does nothing.  The Python `==` between the stored
value and the granted-qos int is false for a stored OSError or
MQTTMessage. -/
def got_suback (entry : Option PidVal) (granted : Nat) : Option PidVal :=
  match entry with
  | none => none
  | some v =>
    if (match v with | .qosVal q => q == granted | _ => false) then none
    else if granted == 0x80 then some (.errVal (-2) "refused")
    else some (.errVal (-2) "qos mismatch")

/-- Result of `MQTTClient._await_pid`: a normal return, a raised recorded
rejection, a raised `OSError(-1, CONN_TIMEOUT)` carrying the elapsed
milliseconds at the raising check, or exhaustion of the iteration budget
(an artefact of the bounded model, not a program outcome). -/
inductive AwaitResult
  | ok
  | err (errno : Int) (strerror : String)
  | timedOut (elapsedMs : Nat)
  | fuelOut
deriving Repr, DecidableEq

/-- `MQTTClient._await_pid` (mqtt_as.py lines 651-660).  `env i` is the
table entry seen at the i-th poll (the table is mutated concurrently by
the ack callbacks); each iteration sleeps `4 * _POLL_DELAY = 20` ms, so
the elapsed time at the i-th check is `20 * i` ms; `rms` is
`_response_ms`.  The fuel bounds only the number of sleeps taken. -/
def awaitPidLoop (env : Nat → Option PidVal) (rms : Nat) (fuel i : Nat) : AwaitResult :=
  match env i with
  | none => .ok
  | some (.errVal n m) => .err n m
  | some _ =>
    if 20 * i > rms then .timedOut (20 * i)
    else
      match fuel with
      | 0 => .fuelOut
      | f + 1 => awaitPidLoop env rms f (i + 1)
termination_by fuel

def await_pid (env : Nat → Option PidVal) (rms fuel : Nat) : AwaitResult :=
  awaitPidLoop env rms fuel 0

theorem awaitPidLoop_ne_fuelOut (env : Nat → Option PidVal) (rms : Nat) :
    ∀ fuel i, 20 * (i + fuel) > rms → awaitPidLoop env rms fuel i ≠ .fuelOut := by
  intro fuel
  induction fuel with
  | zero =>
    intro i h
    rw [awaitPidLoop]
    cases henv : env i with
    | none => simp
    | some v =>
      cases v with
      | errVal n m => simp
      | qosVal q => rw [if_pos (by omega)]; simp
      | msgVal mm => rw [if_pos (by omega)]; simp
  | succ f ih =>
    intro i h
    rw [awaitPidLoop]
    cases henv : env i with
    | none => simp
    | some v =>
      cases v with
      | errVal n m => simp
      | qosVal q =>
        by_cases hi : 20 * i > rms
        · rw [if_pos hi]; simp
        · rw [if_neg hi]
          exact ih (i + 1) (by omega)
      | msgVal mm =>
        by_cases hi : 20 * i > rms
        · rw [if_pos hi]; simp
        · rw [if_neg hi]
          exact ih (i + 1) (by omega)

theorem awaitPidLoop_pending_timeout (env : Nat → Option PidVal) (rms : Nat)
    (hp : ∀ j, ∃ v, env j = some v ∧ v.isErr = false) :
    ∀ fuel i, 20 * i ≤ rms + 20 → 20 * (i + fuel) > rms →
      ∃ e, awaitPidLoop env rms fuel i = .timedOut e ∧ rms < e ∧ e ≤ rms + 20 := by
  intro fuel
  induction fuel with
  | zero =>
    intro i hpre h
    obtain ⟨v, hv, hverr⟩ := hp i
    rw [awaitPidLoop, hv]
    cases v with
    | errVal n m => simp [PidVal.isErr] at hverr
    | qosVal q =>
      rw [if_pos (by omega)]
      exact ⟨20 * i, rfl, by omega, by omega⟩
    | msgVal mm =>
      rw [if_pos (by omega)]
      exact ⟨20 * i, rfl, by omega, by omega⟩
  | succ f ih =>
    intro i hpre h
    obtain ⟨v, hv, hverr⟩ := hp i
    rw [awaitPidLoop, hv]
    cases v with
    | errVal n m => simp [PidVal.isErr] at hverr
    | qosVal q =>
      by_cases hi : 20 * i > rms
      · rw [if_pos hi]
        exact ⟨20 * i, rfl, by omega, by omega⟩
      · rw [if_neg hi]
        exact ih (i + 1) (by omega) (by omega)
    | msgVal mm =>
      by_cases hi : 20 * i > rms
      · rw [if_pos hi]
        exact ⟨20 * i, rfl, by omega, by omega⟩
      · rw [if_neg hi]
        exact ih (i + 1) (by omega) (by omega)

theorem awaitPidLoop_skip (env : Nat → Option PidVal) (rms : Nat) :
    ∀ k fuel i, (∀ j, j < k → ∃ v, env (i + j) = some v ∧ v.isErr = false) →
      (∀ j, j < k → 20 * (i + j) ≤ rms) → k ≤ fuel →
      awaitPidLoop env rms fuel i = awaitPidLoop env rms (fuel - k) (i + k) := by
  intro k
  induction k with
  | zero => intro fuel i _ _ _; simp
  | succ k ih =>
    intro fuel i hpend htime hk
    cases fuel with
    | zero => omega
    | succ f =>
      rw [awaitPidLoop]
      cases henv : env i with
      | none =>
        exfalso
        obtain ⟨v, hv, _⟩ := hpend 0 (by omega)
        rw [Nat.add_zero, henv] at hv
        exact Option.noConfusion hv
      | some v =>
        obtain ⟨v2, hv2, hverr⟩ := hpend 0 (by omega)
        rw [Nat.add_zero, henv] at hv2
        have hvv : v = v2 := by injection hv2
        subst hvv
        cases v with
        | errVal n m => simp [PidVal.isErr] at hverr
        | qosVal q =>
          rw [if_neg (show ¬ 20 * i > rms by have := htime 0 (by omega); omega)]
          rw [show f + 1 - (k + 1) = f - k by omega,
            show i + (k + 1) = i + 1 + k by omega]
          exact ih f (i + 1)
            (fun j hj => by
              have h := hpend (j + 1) (by omega)
              rwa [show i + (j + 1) = i + 1 + j by omega] at h)
            (fun j hj => by
              have h := htime (j + 1) (by omega)
              omega)
            (by omega)
        | msgVal mm =>
          rw [if_neg (show ¬ 20 * i > rms by have := htime 0 (by omega); omega)]
          rw [show f + 1 - (k + 1) = f - k by omega,
            show i + (k + 1) = i + 1 + k by omega]
          exact ih f (i + 1)
            (fun j hj => by
              have h := hpend (j + 1) (by omega)
              rwa [show i + (j + 1) = i + 1 + j by omega] at h)
            (fun j hj => by
              have h := htime (j + 1) (by omega)
              omega)
            (by omega)

/-- C3: `_await_pid` returns normally as soon as the entry is absent,
including when it was removed before the wait (poll 0) or at any poll
during the wait after pending earlier polls; it raises the recorded
OSError when the entry holds a rejection at any reached poll; against an
entry that stays pending it raises the connection timeout strictly after
response_ms but within one 20 ms poll interval; and given fuel covering
the timeout bound it never runs out, i.e. never blocks indefinitely. -/
theorem await_pid_spec (env : Nat → Option PidVal) (rms fuel : Nat) :
    (∀ k, k ≤ fuel →
      (∀ j, j < k → ∃ v, env j = some v ∧ v.isErr = false) →
      (∀ j, j < k → 20 * j ≤ rms) →
      env k = none → await_pid env rms fuel = .ok) ∧
    (∀ k n m, k ≤ fuel →
      (∀ j, j < k → ∃ v, env j = some v ∧ v.isErr = false) →
      (∀ j, j < k → 20 * j ≤ rms) →
      env k = some (.errVal n m) → await_pid env rms fuel = .err n m) ∧
    ((∀ j, ∃ v, env j = some v ∧ v.isErr = false) → 20 * fuel > rms →
      ∃ e, await_pid env rms fuel = .timedOut e ∧ rms < e ∧ e ≤ rms + 20) ∧
    (20 * fuel > rms → await_pid env rms fuel ≠ .fuelOut) := by
  refine ⟨fun k hk hpend htime habs => ?_, fun k n m hk hpend htime herr => ?_,
    fun hp hf => ?_, fun hf => ?_⟩
  · rw [await_pid, awaitPidLoop_skip env rms k fuel 0
      (fun j hj => by simpa using hpend j hj)
      (fun j hj => by have := htime j hj; omega) hk,
      Nat.zero_add]
    cases h2 : fuel - k <;> rw [awaitPidLoop, habs]
  · rw [await_pid, awaitPidLoop_skip env rms k fuel 0
      (fun j hj => by simpa using hpend j hj)
      (fun j hj => by have := htime j hj; omega) hk,
      Nat.zero_add]
    cases h2 : fuel - k <;> rw [awaitPidLoop, herr]
  · exact awaitPidLoop_pending_timeout env rms hp fuel 0 (by omega) (by omega)
  · exact awaitPidLoop_ne_fuelOut env rms fuel 0 (by omega)

/-- Closed instance of `await_pid_spec`: an entry pending for two polls
and then removed mid-wait returns ok; an entry rejected at the second
poll raises the recorded error; a never-acked entry times out just past
response_ms and never exhausts the loop. -/
theorem await_pid_spec_witness :
    await_pid (fun i => if i < 2 then some (.qosVal 1) else none) 100 4 = .ok ∧
    await_pid (fun i => if i < 1 then some (.qosVal 1)
        else some (.errVal (-2) "refused")) 100 4 = .err (-2) "refused" ∧
    (∃ e, await_pid (fun _ => some (.qosVal 1)) 50 4 = .timedOut e ∧
      50 < e ∧ e ≤ 70) ∧
    await_pid (fun _ => some (.qosVal 1)) 50 4 ≠ .fuelOut :=
  ⟨(await_pid_spec (fun i => if i < 2 then some (.qosVal 1) else none) 100 4).1
      2 (by norm_num) (fun j hj => ⟨.qosVal 1, by simp [hj], rfl⟩)
      (fun j hj => by omega) rfl,
   (await_pid_spec (fun i => if i < 1 then some (.qosVal 1)
        else some (.errVal (-2) "refused")) 100 4).2.1
      1 (-2) "refused" (by norm_num) (fun j hj => ⟨.qosVal 1, by simp [hj], rfl⟩)
      (fun j hj => by omega) rfl,
   (await_pid_spec (fun _ => some (.qosVal 1)) 50 4).2.2.1
      (fun _ => ⟨.qosVal 1, rfl, rfl⟩) (by norm_num),
   (await_pid_spec (fun _ => some (.qosVal 1)) 50 4).2.2.2 (by norm_num)⟩

/-! ## subscribe error handling -/

/-- Outcome of one pass of the retry loop of `MQTTClient.subscribe`
(mqtt_as.py lines 764-776) after `_await_pid` finishes. -/
inductive SubOutcome
  | success
  | raised (errno : Int) (strerror : String)
  | retryAfterReconnect
deriving Repr, DecidableEq

/-- The `except OSError` handler of `MQTTClient.subscribe` (lines
772-776): errno -2 (a recorded broker rejection) is re-raised immediately
as `OSError(-1, "subscribe failed:" + strerror)`; any other OSError is
logged, `_reconnect(proto, "sub")` runs, and the loop retries. -/
def subscribeOnOSError (errno : Int) (strerror : String) : SubOutcome :=
  if errno = -2 then .raised (-1) ("subscribe failed:" ++ strerror)
  else .retryAfterReconnect

/-- Map an `_await_pid` result through the subscribe loop body: a normal
return is success, raised errors go through the OSError handler (the
timeout carries errno -1).  `fuelOut` is an artefact of the bounded model
and is not a program outcome. -/
def subscribeAfterAwait : AwaitResult → Option SubOutcome
  | .ok => some .success
  | .err n m => some (subscribeOnOSError n m)
  | .timedOut _ => some (subscribeOnOSError (-1) CONN_TIMEOUT)
  | .fuelOut => none

/-- C5: a SUBACK whose granted byte is 0x80 for a pending subscribe
records the "refused" rejection; `_await_pid` then raises it, and
`subscribe` surfaces `OSError(-1, "subscribe failed:refused")` to its
caller immediately instead of taking the reconnect-and-retry path. -/
theorem subscribe_refused (q rms fuel : Nat) (hq : q = 0 ∨ q = 1) :
    got_suback (some (.qosVal q)) 0x80 = some (.errVal (-2) "refused") ∧
    await_pid (fun _ => got_suback (some (.qosVal q)) 0x80) rms fuel =
      .err (-2) "refused" ∧
    subscribeAfterAwait
        (await_pid (fun _ => got_suback (some (.qosVal q)) 0x80) rms fuel) =
      some (.raised (-1) "subscribe failed:refused") ∧
    subscribeAfterAwait
        (await_pid (fun _ => got_suback (some (.qosVal q)) 0x80) rms fuel) ≠
      some .retryAfterReconnect := by
  have hg : got_suback (some (.qosVal q)) 0x80 = some (.errVal (-2) "refused") := by
    rcases hq with h | h <;> subst h <;> rfl
  have ha : await_pid (fun _ => got_suback (some (.qosVal q)) 0x80) rms fuel =
      .err (-2) "refused" := by
    cases fuel <;> (rw [await_pid, awaitPidLoop]; simp only [hg])
  refine ⟨hg, ha, ?_, ?_⟩
  · rw [ha]
    rfl
  · rw [ha]
    simp [subscribeAfterAwait, subscribeOnOSError]

/-- Closed instance of `subscribe_refused` at qos 1. -/
theorem subscribe_refused_witness :
    got_suback (some (.qosVal 1)) 0x80 = some (.errVal (-2) "refused") ∧
    subscribeAfterAwait (await_pid (fun _ => got_suback (some (.qosVal 1)) 0x80) 60 3) =
      some (.raised (-1) "subscribe failed:refused") :=
  ⟨(subscribe_refused 1 60 3 (Or.inr rfl)).1,
   (subscribe_refused 1 60 3 (Or.inr rfl)).2.2.1⟩

/-! ## MQTTClient construction -/

/-- The MQTTConfig fields read by `MQTTClient.__init__` (mqtt_as.py lines
491-519); the remaining config fields do not affect its checks. -/
structure Config where
  server : Option String
  port : Nat
  response_time : Nat
  keepalive : Nat
  ssl_params : Bool
  will : Option MQTTMessage
  debug : Nat

/-- The client fields `__init__` establishes on success. -/
structure ClientInit where
  response_ms : Nat
  keepalive : Nat
  port : Nat
  state : Nat
  lastpid : Nat
deriving Repr, DecidableEq

/-- `MQTTClient.__init__` (mqtt_as.py lines 491-519): zeroes the keepalive
when no last will is set ("no point setting MQTT keepalive if there is no
lw", line 497), then rejects keepalive at 65536 or more, then rejects
`0 < keepalive < 1.5 * response_time` (for integers `keepalive <
response_time * 1.5` is exactly `2 * keepalive < 3 * response_time`), then
defaults the port from ssl_params and requires a server.  The
`will must be MQTTMessage` isinstance check cannot fail in this typed
model. -/
def clientInit (c : Config) : Except String ClientInit :=
  let response_ms := c.response_time * 1000
  let keepalive := if c.will.isNone then 0 else c.keepalive
  if keepalive ≥ 65536 then .error "invalid keepalive time"
  else if keepalive > 0 ∧ 2 * keepalive < 3 * c.response_time then
    .error "keepalive not >1.5x response_time"
  else
    let port := if c.port = 0 then (if c.ssl_params then 8883 else 1883) else c.port
    match c.server with
    | none => .error "no server specified"
    | some _ => .ok ⟨response_ms, keepalive, port, 0, 0⟩

/-- Counterexample to C8 as stated: a config with keepalive 100 and
response_time 600 (so 0 < keepalive < 1.5 * response_time) but no last
will constructs successfully, because `__init__` zeroes the keepalive
before checking it whenever no last will is set. -/
theorem clientInit_no_will_ok :
    0 < (100 : Nat) ∧ 2 * 100 < 3 * 600 ∧
    clientInit ⟨some "broker", 0, 600, 100, false, none, 0⟩ =
      .ok ⟨600000, 0, 1883, 0, 0⟩ :=
  ⟨by norm_num, by norm_num, by rfl⟩

/-- C8 amended: when a last will is set, every config with
0 < keepalive < 1.5 * response_time fails construction synchronously with
an error; when no last will is set, the keepalive is forced to 0 at
construction and no keepalive error is raised (construction can then only
fail for a missing server). -/
theorem clientInit_keepalive_check (c : Config) :
    (c.will.isSome = true → 0 < c.keepalive →
      2 * c.keepalive < 3 * c.response_time → ∃ e, clientInit c = .error e) ∧
    (c.will = none →
      clientInit c = .error "no server specified" ∨
      ∃ r, clientInit c = .ok r ∧ r.keepalive = 0) := by
  constructor
  · intro hw hk hlt
    have hwn : c.will.isNone = false := by
      cases hc : c.will <;> simp_all
    simp only [clientInit, hwn, Bool.false_eq_true, if_false]
    by_cases h65 : c.keepalive ≥ 65536
    · rw [if_pos h65]
      exact ⟨_, rfl⟩
    · rw [if_neg h65, if_pos ⟨hk, hlt⟩]
      exact ⟨_, rfl⟩
  · intro hw
    have hwn : c.will.isNone = true := by simp [hw]
    simp only [clientInit, hwn, if_true]
    rw [if_neg (by omega), if_neg (by simp)]
    cases hs : c.server with
    | none => exact Or.inl rfl
    | some srv => exact Or.inr ⟨_, rfl, rfl⟩

/-- Closed instance of `clientInit_keepalive_check`: with a last will the
bad keepalive is rejected; without one the keepalive is forced to 0. -/
theorem clientInit_keepalive_check_witness :
    (∃ e, clientInit ⟨some "broker", 0, 600, 100, false,
        some ⟨[116], .bytes [], false, 0, none⟩, 0⟩ = .error e) ∧
    (clientInit ⟨none, 0, 600, 100, false, none, 0⟩ = .error "no server specified" ∨
      ∃ r, clientInit ⟨none, 0, 600, 100, false, none, 0⟩ = .ok r ∧ r.keepalive = 0) :=
  ⟨(clientInit_keepalive_check _).1 rfl (by norm_num) (by norm_num),
   (clientInit_keepalive_check _).2 rfl⟩

end MqttAs
